import Mathlib

/-!
Verification of the `symbolism` library (symbolism/symbolism.py): a
combinator library for deferred symbolic expressions.

A `symbol` object has two attributes:
  * `instance` — the payload (an arbitrary host value or callable);
  * `parameters` — `None` for a leaf, a tuple of child symbols for a
    positional application, or a keyword dictionary (name-keyed, in
    declaration order) for a named application.

We embed this shallowly: `Sym α` is the tree of symbols whose payloads
live in an arbitrary host-value type `α`.  Keyword dictionaries built by
Python from `**kwargs` are insertion-ordered with pairwise-distinct keys;
we model them as association lists (theorems add a `Nodup` hypothesis on
the keys where dictionary semantics could matter).

The host language's dynamic invocation `f(*vals)` is modelled by an
explicit parameter `call : α → List α → α`; the source's `evaluate`
only ever invokes payloads through a positional splat, so `call` is all
it needs.  A concrete instantiation `PyV` with an interpreter `pyCall`
is provided further down for the pre-built operator catalog.
-/

namespace Symbolism

/-- The `symbol` class: payload `inst` (the source's `instance` field,
renamed because `instance` is a keyword here) and `parameters`, which is
`none` (Python `None`), a positional tuple (`Sum.inl`), or a keyword
dictionary in declaration order (`Sum.inr`). -/
inductive Sym (α : Type) : Type where
  | mk (inst : α) (parameters : Option (List (Sym α) ⊕ List (String × Sym α)))

variable {α : Type}

/-- Accessor for the payload (`self.instance`). -/
def Sym.inst : Sym α → α
  | .mk i _ => i

/-- Accessor for `self.parameters`. -/
def Sym.parameters : Sym α → Option (List (Sym α) ⊕ List (String × Sym α))
  | .mk _ p => p

/-- `symbol.__init__`: `self.instance = instance; self.parameters = None`. -/
def symbol (i : α) : Sym α := .mk i none

/-- The error raised by `symbol.__call__` when positional and keyword
arguments are mixed (`ValueError: cannot mix positional and keyword
arguments`). -/
inductive CallError : Type where
  | mixedArguments
  deriving DecidableEq

/-- `symbol.__call__(self, *args, **kwargs)`:

    if len(args) > 0 and len(kwargs) > 0:
        raise ValueError('cannot mix positional and keyword arguments')
    s = symbol(self.instance)
    s.parameters = args if len(kwargs) == 0 else kwargs
    return s
-/
def callSym (s : Sym α) (args : List (Sym α)) (kwargs : List (String × Sym α)) :
    Except CallError (Sym α) :=
  if 0 < args.length ∧ 0 < kwargs.length then
    .error .mixedArguments
  else
    .ok (.mk s.inst (some (if kwargs.length = 0 then .inl args else .inr kwargs)))

/-- The node produced by a purely positional application (including the
zero-argument application `s()`, whose `parameters` is the empty tuple). -/
def applyPos (s : Sym α) (args : List (Sym α)) : Sym α :=
  .mk s.inst (some (.inl args))

/-- The node produced by a purely keyword application. -/
def applyNamed (s : Sym α) (kwargs : List (String × Sym α)) : Sym α :=
  .mk s.inst (some (.inr kwargs))

/-- `symbol.__len__`: `len(self.parameters) if self.parameters is not None
else 0` (for a keyword dictionary this is the number of entries). -/
def lenSym : Sym α → Nat
  | .mk _ none => 0
  | .mk _ (some (.inl args)) => args.length
  | .mk _ (some (.inr kvs)) => kvs.length

/-- `symbol.__iter__`: iterates over `self.parameters.values()` when the
parameters are a dictionary, otherwise over `self.parameters` itself.
For a leaf, `self.parameters` is `None` and the `for` loop raises
`TypeError` (`NoneType` is not iterable); we model that failure as
`none`, and a successful iteration as `some` of the yielded children. -/
def iterSym : Sym α → Option (List (Sym α))
  | .mk _ none => none
  | .mk _ (some (.inl args)) => some args
  | .mk _ (some (.inr kvs)) => some (kvs.map Prod.snd)

/-- Indexing key for `symbol.__getitem__`: a host integer or a slice
(with optional start and stop; the source never supplies a step). -/
inductive Key : Type where
  | int (i : Int)
  | slice (start stop : Option Int)
  deriving DecidableEq

/-- Failures of `symbol.__getitem__`: `notApplicable` models the
`TypeError` raised when `self.parameters` is `None` (subscripting
`None`), `outOfRange` models `IndexError`. -/
inductive GetError : Type where
  | notApplicable
  | outOfRange
  deriving DecidableEq

/-- Host sequence indexing `seq[i]` for an integer `i` (Python
semantics: a negative index counts from the end; out of range is
`IndexError`, modelled as `none`). -/
def pyGetInt (l : List β) (i : Int) : Option β :=
  let j : Int := if i < 0 then i + l.length else i
  if j < 0 then none else l[j.toNat]?

/-- Host sequence slicing `seq[start:stop]` with unit step (Python
semantics: negative bounds count from the end, then both bounds are
clamped to `[0, len]`). -/
def pySlice (l : List β) (start stop : Option Int) : List β :=
  let n := l.length
  let norm : Option Int → Nat → Nat := fun o dflt =>
    match o with
    | none => dflt
    | some i => if i < 0 then (i + n).toNat else min i.toNat n
  (l.take (norm stop n)).drop (norm start 0)

/-- Result of `symbol.__getitem__`: a single child for an integer key,
a sequence of children for a slice key. -/
abbrev GetResult (α : Type) := Sym α ⊕ List (Sym α)

/-- Indexing into the sequence form shared by both branches of
`symbol.__getitem__` (a tuple, or `list(dict.values())`). -/
def getSeq (l : List (Sym α)) : Key → Except GetError (GetResult α)
  | .int i =>
    match pyGetInt l i with
    | some x => .ok (.inl x)
    | none => .error .outOfRange
  | .slice a b => .ok (.inr (pySlice l a b))

/-- `symbol.__getitem__`:

    return (
        list(self.parameters.values())[key]
        if isinstance(self.parameters, dict) else
        self.parameters[key]
    )

When `self.parameters` is `None` the second branch subscripts `None`
and raises `TypeError`, modelled as `notApplicable`. -/
def getitem (s : Sym α) (k : Key) : Except GetError (GetResult α) :=
  match s.parameters with
  | none => .error .notApplicable
  | some (.inl args) => getSeq args k
  | some (.inr kvs) => getSeq (kvs.map Prod.snd) k

mutual

/-- `symbol.evaluate`:

    if self.parameters is None:
        return self.instance
    return self.instance(*[
        parameter.evaluate()
        for parameter in (
            self.parameters.values()
            if isinstance(self.parameters, dict) else
            self.parameters
        )
    ])

Note that the payload is always invoked through a positional splat
(`*[...]`), also for keyword-built nodes: only the dictionary's values
are used, in declaration order. -/
def evaluate (call : α → List α → α) : Sym α → α
  | .mk i none => i
  | .mk i (some (.inl args)) => call i (evaluateArgs call args)
  | .mk i (some (.inr kvs)) => call i (evaluateKwargs call kvs)

/-- The evaluated list comprehension over a positional parameter tuple. -/
def evaluateArgs (call : α → List α → α) : List (Sym α) → List α
  | [] => []
  | a :: rest => evaluate call a :: evaluateArgs call rest

/-- The evaluated list comprehension over a keyword dictionary's values. -/
def evaluateKwargs (call : α → List α → α) : List (String × Sym α) → List α
  | [] => []
  | kv :: rest => evaluate call kv.2 :: evaluateKwargs call rest

end

theorem evaluateArgs_eq_map (call : α → List α → α) (l : List (Sym α)) :
    evaluateArgs call l = l.map (evaluate call) := by
  induction l with
  | nil => rfl
  | cons a rest ih => simp [evaluateArgs, ih]

theorem evaluateKwargs_eq_map (call : α → List α → α) (kvs : List (String × Sym α)) :
    evaluateKwargs call kvs = kvs.map (fun kv => evaluate call kv.2) := by
  induction kvs with
  | nil => rfl
  | cons kv rest ih => simp [evaluateKwargs, ih]

mutual

/-- Modelled from the spec: the recursive evaluation the specification
describes, in which a node built with named binding invokes its payload
with the named calling convention (`callNamed`, each evaluated child
passed under its declared name), while positionally built nodes use the
positional convention.  This is the comparison point for checking the
source's `evaluate` against the spec; it is not part of the source. -/
def evaluateSpec (call : α → List α → α) (callNamed : α → List (String × α) → α) :
    Sym α → α
  | .mk i none => i
  | .mk i (some (.inl args)) => call i (evaluateSpecArgs call callNamed args)
  | .mk i (some (.inr kvs)) => callNamed i (evaluateSpecKwargs call callNamed kvs)

/-- Modelled from the spec: evaluated positional children, in order. -/
def evaluateSpecArgs (call : α → List α → α) (callNamed : α → List (String × α) → α) :
    List (Sym α) → List α
  | [] => []
  | a :: rest => evaluateSpec call callNamed a :: evaluateSpecArgs call callNamed rest

/-- Modelled from the spec: evaluated named children, keyed by their
declared names, in declaration order. -/
def evaluateSpecKwargs (call : α → List α → α) (callNamed : α → List (String × α) → α) :
    List (String × Sym α) → List (String × α)
  | [] => []
  | kv :: rest =>
    (kv.1, evaluateSpec call callNamed kv.2) :: evaluateSpecKwargs call callNamed rest

end

/-!
## A concrete host-value universe

The payloads of the pre-built operator catalog are specific host
functions (`_add_(x, y)` returns `x + y`, and so on).  To state the
catalog's guarantees we fix a small model of the host runtime: integer
and boolean values, the catalog's function objects, and an error value
`verr` standing for any raised host exception (`TypeError`,
`ZeroDivisionError`, ...).  Host operations outside this universe
(floats from true division or negative powers, containers for `in`,
matrix multiplication) are modelled as `verr`.
-/

/-- The function objects defined by the module (payloads of the
operator catalog). -/
inductive PyFn : Type where
  | fAnd | fOr | fNot | fIn | fIs
  | fAdd | fSub | fMul | fMatmul | fTruediv | fFloordiv | fMod | fPow
  | fLshift | fRshift | fBitand | fBitxor | fBitor
  | fInvert | fPos | fNeg
  | fEq | fNe | fLt | fLe | fGt | fGe
  deriving DecidableEq

/-- Host values: integers, booleans, the catalog's function objects, and
an error marker for raised host exceptions. -/
inductive PyV : Type where
  | vint (n : Int)
  | vbool (b : Bool)
  | vfn (f : PyFn)
  | verr
  deriving DecidableEq

/-- Host coercion of a value to an integer for arithmetic (booleans are
integers in the host: `True` is `1`, `False` is `0`). -/
def asInt : PyV → Option Int
  | .vint n => some n
  | .vbool b => some (if b then 1 else 0)
  | _ => none

/-- Binary integer operation lifted to host values; non-numeric operands
raise (`verr`). -/
def arith2 (f : Int → Int → PyV) (x y : PyV) : PyV :=
  match asInt x, asInt y with
  | some m, some n => f m n
  | _, _ => .verr

/-- Unary integer operation lifted to host values. -/
def arith1 (f : Int → PyV) (x : PyV) : PyV :=
  match asInt x with
  | some m => f m
  | _ => .verr

/-- Host truthiness (`bool(x)`): zero is falsy, nonzero integers and
function objects are truthy. -/
def pyTruthy : PyV → Bool
  | .vint n => decide (n ≠ 0)
  | .vbool b => b
  | .vfn _ => true
  | .verr => true

/-- Host `==` as a boolean: numeric values compare through their integer
value (`True == 1`), function objects by identity, and values of
unrelated kinds compare unequal without raising. -/
def pyEqB (x y : PyV) : Bool :=
  match asInt x, asInt y with
  | some m, some n => decide (m = n)
  | _, _ =>
    match x, y with
    | .vfn f, .vfn g => decide (f = g)
    | _, _ => false

/-- Host `x and y`: returns `y` when `x` is truthy, otherwise `x`. -/
def pyAnd (x y : PyV) : PyV := if pyTruthy x then y else x

/-- Host `x or y`: returns `x` when `x` is truthy, otherwise `y`. -/
def pyOr (x y : PyV) : PyV := if pyTruthy x then x else y

/-- Host `not x`. -/
def pyNot (x : PyV) : PyV := .vbool (!pyTruthy x)

/-- Host `x in y`: no container values exist in this universe, so
membership always raises. -/
def pyIn (_ _ : PyV) : PyV := .verr

/-- Host `x is y`: identity, modelled as structural equality on this
universe of immutable interned values. -/
def pyIs (x y : PyV) : PyV := .vbool (decide (x = y))

/-- Host `x + y`. -/
def pyAdd : PyV → PyV → PyV := arith2 (fun m n => .vint (m + n))

/-- Host `x - y`. -/
def pySub : PyV → PyV → PyV := arith2 (fun m n => .vint (m - n))

/-- Host `x * y`. -/
def pyMul : PyV → PyV → PyV := arith2 (fun m n => .vint (m * n))

/-- Host `x @ y`: integers do not support matrix multiplication. -/
def pyMatmul (_ _ : PyV) : PyV := .verr

/-- Host `x / y`: true division of integers yields a host float, which
lies outside this value model. -/
def pyTruediv (_ _ : PyV) : PyV := .verr

/-- Host `x // y`: floor division; division by zero raises. -/
def pyFloordiv : PyV → PyV → PyV :=
  arith2 (fun m n => if n = 0 then .verr else .vint (Int.fdiv m n))

/-- Host `x % y`: remainder with the divisor's sign (floor convention);
division by zero raises. -/
def pyMod : PyV → PyV → PyV :=
  arith2 (fun m n => if n = 0 then .verr else .vint (Int.fmod m n))

/-- Host `x ** y` for a nonnegative exponent (a negative exponent yields
a host float, outside this model). -/
def pyPow : PyV → PyV → PyV :=
  arith2 (fun m n => if 0 ≤ n then .vint (m ^ n.toNat) else .verr)

/-- Host `x << y`: a negative shift count raises. -/
def pyLshift : PyV → PyV → PyV :=
  arith2 (fun m n => if 0 ≤ n then .vint (m * 2 ^ n.toNat) else .verr)

/-- Host `x >> y`: arithmetic right shift (floor division by a power of
two); a negative shift count raises. -/
def pyRshift : PyV → PyV → PyV :=
  arith2 (fun m n => if 0 ≤ n then .vint (Int.fdiv m (2 ^ n.toNat)) else .verr)

/-- Host `x & y` on arbitrary-precision two's-complement integers. -/
def pyBitand : PyV → PyV → PyV := arith2 (fun m n => .vint (Int.land m n))

/-- Host `x ^ y`. -/
def pyBitxor : PyV → PyV → PyV := arith2 (fun m n => .vint (Int.xor m n))

/-- Host `x | y`. -/
def pyBitor : PyV → PyV → PyV := arith2 (fun m n => .vint (Int.lor m n))

/-- Host `~x`, which is `-x - 1`. -/
def pyInvert : PyV → PyV := arith1 (fun m => .vint (-m - 1))

/-- Host unary `+x` (numeric identity). -/
def pyPos : PyV → PyV := arith1 (fun m => .vint m)

/-- Host unary `-x`. -/
def pyNeg : PyV → PyV := arith1 (fun m => .vint (-m))

/-- Host `x == y` as a value. -/
def pyEq (x y : PyV) : PyV := .vbool (pyEqB x y)

/-- Host `x != y`. -/
def pyNe (x y : PyV) : PyV := .vbool (!pyEqB x y)

/-- Host `x < y`: integers compare numerically; unrelated kinds raise. -/
def pyLt : PyV → PyV → PyV := arith2 (fun m n => .vbool (decide (m < n)))

/-- Host `x <= y`. -/
def pyLe : PyV → PyV → PyV := arith2 (fun m n => .vbool (decide (m ≤ n)))

/-- Host `x > y`. -/
def pyGt : PyV → PyV → PyV := arith2 (fun m n => .vbool (decide (n < m)))

/-- Host `x >= y`. -/
def pyGe : PyV → PyV → PyV := arith2 (fun m n => .vbool (decide (n ≤ m)))

/-- The body of each module-level function, dispatched on the function
object and the positional argument list (`_and_(x, y)` returns
`x and y`, `_add_(x, y)` returns `x + y`, and so on); a call with the
wrong number of arguments raises. -/
def pyApplyFn : PyFn → List PyV → PyV
  | .fAnd, [x, y] => pyAnd x y
  | .fOr, [x, y] => pyOr x y
  | .fNot, [x] => pyNot x
  | .fIn, [x, y] => pyIn x y
  | .fIs, [x, y] => pyIs x y
  | .fAdd, [x, y] => pyAdd x y
  | .fSub, [x, y] => pySub x y
  | .fMul, [x, y] => pyMul x y
  | .fMatmul, [x, y] => pyMatmul x y
  | .fTruediv, [x, y] => pyTruediv x y
  | .fFloordiv, [x, y] => pyFloordiv x y
  | .fMod, [x, y] => pyMod x y
  | .fPow, [x, y] => pyPow x y
  | .fLshift, [x, y] => pyLshift x y
  | .fRshift, [x, y] => pyRshift x y
  | .fBitand, [x, y] => pyBitand x y
  | .fBitxor, [x, y] => pyBitxor x y
  | .fBitor, [x, y] => pyBitor x y
  | .fInvert, [x] => pyInvert x
  | .fPos, [x] => pyPos x
  | .fNeg, [x] => pyNeg x
  | .fEq, [x, y] => pyEq x y
  | .fNe, [x, y] => pyNe x y
  | .fLt, [x, y] => pyLt x y
  | .fLe, [x, y] => pyLe x y
  | .fGt, [x, y] => pyGt x y
  | .fGe, [x, y] => pyGe x y
  | _, _ => .verr

/-- Host positional invocation `f(*vals)`: calling anything other than a
function object raises. -/
def pyCall : PyV → List PyV → PyV
  | .vfn f, args => pyApplyFn f args
  | _, _ => .verr

/-- The number of declared parameters of each module-level function. -/
def pyArity : PyFn → Nat
  | .fNot | .fInvert | .fPos | .fNeg => 1
  | _ => 2

/-- Host keyword invocation `f(**kwargs)`: every module-level function
declares its parameters as `x` (and `y` for the binary ones), so the
keyword form binds each argument to the parameter with its name; a
missing, duplicate, or unexpected keyword raises. -/
def pyCallNamed : PyV → List (String × PyV) → PyV
  | .vfn f, kvs =>
    if pyArity f = 1 then
      match kvs with
      | [("x", a)] => pyApplyFn f [a]
      | _ => .verr
    else
      if kvs.length = 2 then
        match kvs.lookup "x", kvs.lookup "y" with
        | some a, some b => pyApplyFn f [a, b]
        | _, _ => .verr
      else .verr
  | _, _ => .verr

/-!
## The operator catalog

Each entry is `symbol(<module-level function>)`, exactly as in the
source (`and_ = symbol(_and_)`, ..., `ge_ = symbol(_ge_)`), together
with the source's aliases.
-/

/-- `and_ = symbol(_and_)`. -/
def and_ : Sym PyV := symbol (.vfn .fAnd)

/-- `or_ = symbol(_or_)`. -/
def or_ : Sym PyV := symbol (.vfn .fOr)

/-- `not_ = symbol(_not_)`. -/
def not_ : Sym PyV := symbol (.vfn .fNot)

/-- `in_ = symbol(_in_)`. -/
def in_ : Sym PyV := symbol (.vfn .fIn)

/-- `is_ = symbol(_is_)`. -/
def is_ : Sym PyV := symbol (.vfn .fIs)

/-- `add_ = symbol(_add_)`. -/
def add_ : Sym PyV := symbol (.vfn .fAdd)

/-- `sub_ = symbol(_sub_)`. -/
def sub_ : Sym PyV := symbol (.vfn .fSub)

/-- `mul_ = symbol(_mul_)`. -/
def mul_ : Sym PyV := symbol (.vfn .fMul)

/-- `matmul_ = symbol(_matmul_)`. -/
def matmul_ : Sym PyV := symbol (.vfn .fMatmul)

/-- `truediv_ = symbol(_div_)`. -/
def truediv_ : Sym PyV := symbol (.vfn .fTruediv)

/-- `div_ = truediv_`. -/
def div_ : Sym PyV := truediv_

/-- `floordiv_ = symbol(_floordiv_)`. -/
def floordiv_ : Sym PyV := symbol (.vfn .fFloordiv)

/-- `mod_ = symbol(_mod_)`. -/
def mod_ : Sym PyV := symbol (.vfn .fMod)

/-- `pow_ = symbol(_pow_)`. -/
def pow_ : Sym PyV := symbol (.vfn .fPow)

/-- `lshift_ = symbol(_lshift_)`. -/
def lshift_ : Sym PyV := symbol (.vfn .fLshift)

/-- `rshift_ = symbol(_rshift_)`. -/
def rshift_ : Sym PyV := symbol (.vfn .fRshift)

/-- `bitand_ = symbol(_bitand_)`. -/
def bitand_ : Sym PyV := symbol (.vfn .fBitand)

/-- `amp_ = bitand_`. -/
def amp_ : Sym PyV := bitand_

/-- `bitxor_ = symbol(_bitxor_)`. -/
def bitxor_ : Sym PyV := symbol (.vfn .fBitxor)

/-- `xor_ = bitxor_`. -/
def xor_ : Sym PyV := bitxor_

/-- `bitor_ = symbol(_bitor_)`. -/
def bitor_ : Sym PyV := symbol (.vfn .fBitor)

/-- `bar_ = bitor_`. -/
def bar_ : Sym PyV := bitor_

/-- `invert_ = symbol(_invert_)`. -/
def invert_ : Sym PyV := symbol (.vfn .fInvert)

/-- `pos_ = symbol(_pos_)`. -/
def pos_ : Sym PyV := symbol (.vfn .fPos)

/-- `uadd_ = pos_`. -/
def uadd_ : Sym PyV := pos_

/-- `neg_ = symbol(_neg_)`. -/
def neg_ : Sym PyV := symbol (.vfn .fNeg)

/-- `usub_ = neg_`. -/
def usub_ : Sym PyV := neg_

/-- `eq_ = symbol(_eq_)`. -/
def eq_ : Sym PyV := symbol (.vfn .fEq)

/-- `ne_ = symbol(_ne_)`. -/
def ne_ : Sym PyV := symbol (.vfn .fNe)

/-- `lt_ = symbol(_lt_)`. -/
def lt_ : Sym PyV := symbol (.vfn .fLt)

/-- `le_ = symbol(_le_)`. -/
def le_ : Sym PyV := symbol (.vfn .fLe)

/-- `gt_ = symbol(_gt_)`. -/
def gt_ : Sym PyV := symbol (.vfn .fGt)

/-- `ge_ = symbol(_ge_)`. -/
def ge_ : Sym PyV := symbol (.vfn .fGe)

/-!
## Shared lemmas
-/

theorem evaluate_applyPos_eq (call : α → List α → α) (s : Sym α) (args : List (Sym α)) :
    evaluate call (applyPos s args) = call s.inst (args.map (evaluate call)) := by
  simp [applyPos, evaluate, evaluateArgs_eq_map]

theorem evaluate_applyNamed_eq (call : α → List α → α) (s : Sym α)
    (kvs : List (String × Sym α)) :
    evaluate call (applyNamed s kvs) = call s.inst (kvs.map fun kv => evaluate call kv.2) := by
  simp [applyNamed, evaluate, evaluateKwargs_eq_map]

theorem pyGetInt_nat (l : List β) (i : Nat) (h : i < l.length) :
    pyGetInt l (i : Int) = some l[i] := by
  simp [pyGetInt, show ¬((i : Int) < 0) by omega, List.getElem?_eq_getElem h]

theorem pySlice_nat (l : List β) (a b : Nat) (hab : a ≤ b) (hb : b ≤ l.length) :
    pySlice l (some (a : Int)) (some (b : Int)) = (l.take b).drop a := by
  have ha : a ≤ l.length := le_trans hab hb
  simp [pySlice, show ¬((a : Int) < 0) by omega, show ¬((b : Int) < 0) by omega,
    Nat.min_eq_left ha, Nat.min_eq_left hb]

/-!
## Claims
-/

/-- C5: a leaf node built directly from a value `v` has absent children
and evaluates to `v` itself, unchanged, for every host invocation
semantics `call`. -/
theorem leaf_evaluates_to_value (call : α → List α → α) (v : α) :
    (symbol v).parameters = none ∧ evaluate call (symbol v) = v :=
  ⟨rfl, rfl⟩

/-- C4: for every payload `f` and every finite list of positionally
bound children, evaluating the application node equals the host
invocation of `f` on the recursively evaluated children in declaration
order. -/
theorem evaluate_positional_application (call : α → List α → α) (f : α)
    (args : List (Sym α)) :
    evaluate call (applyPos (symbol f) args) = call f (args.map (evaluate call)) :=
  evaluate_applyPos_eq call (symbol f) args

/-- C3: applying a leaf to zero positional arguments yields a
zero-length application node distinct from the leaf: it evaluates to the
payload invoked with no arguments, while the un-applied leaf also has
length 0 but evaluates to the payload itself, uninvoked. -/
theorem zero_argument_application (call : α → List α → α) (f : α) :
    callSym (symbol f) [] [] = .ok (applyPos (symbol f) []) ∧
    lenSym (applyPos (symbol f) []) = 0 ∧
    evaluate call (applyPos (symbol f) []) = call f [] ∧
    lenSym (symbol f) = 0 ∧
    evaluate call (symbol f) = f ∧
    applyPos (symbol f) [] ≠ symbol f := by
  refine ⟨rfl, rfl, rfl, rfl, rfl, ?_⟩
  simp [applyPos, symbol]

/-- C2: an application call supplying at least one positional and at
least one keyword argument fails immediately with the
`ValueError`-based mixed-arguments error; no node is produced (the
result carries only the error, and no existing node is written to — the
operation is a pure function of its inputs). -/
theorem mixed_arguments_rejected (s : Sym α) (args : List (Sym α))
    (kwargs : List (String × Sym α)) (h1 : args ≠ []) (h2 : kwargs ≠ []) :
    callSym s args kwargs = .error .mixedArguments := by
  simp [callSym, List.length_pos.mpr h1, List.length_pos.mpr h2]

/-- Witness for C2 at a concrete call. -/
theorem mixed_arguments_rejected_witness :
    ([symbol (1 : Nat)] ≠ ([] : List (Sym Nat))) ∧
    ([(("y" : String), symbol (2 : Nat))] ≠ ([] : List (String × Sym Nat))) ∧
    callSym (symbol (0 : Nat)) [symbol 1] [("y", symbol 2)] = .error .mixedArguments :=
  ⟨by simp, by simp,
    mixed_arguments_rejected (symbol 0) [symbol 1] [("y", symbol 2)] (by simp) (by simp)⟩

/-- C1 (amended): for a node constructed with named binding, `evaluate`
invokes the payload with the evaluated children passed positionally in
declaration order of the names (the dictionary's values), not by name;
only the values of the keyword mapping reach the payload. -/
theorem named_node_evaluates_positionally (call : α → List α → α) (i : α)
    (kvs : List (String × Sym α)) (_hkeys : (kvs.map Prod.fst).Nodup) :
    evaluate call (applyNamed (symbol i) kvs) =
      call i (kvs.map fun kv => evaluate call kv.2) :=
  evaluate_applyNamed_eq call (symbol i) kvs

/-- Witness for the amended C1 at a concrete named node. -/
theorem named_node_evaluates_positionally_witness :
    ((([(("x" : String), symbol (.vint 1)), ("y", symbol (.vint 2))] :
        List (String × Sym PyV)).map Prod.fst).Nodup) ∧
    evaluate pyCall (applyNamed (symbol (.vfn .fAdd))
        [("x", symbol (.vint 1)), ("y", symbol (.vint 2))]) = .vint 3 :=
  ⟨by decide,
    (named_node_evaluates_positionally pyCall (.vfn .fAdd)
      [("x", symbol (.vint 1)), ("y", symbol (.vint 2))] (by decide)).trans rfl⟩

/-- C1 (counterexample): the node `symbol(_sub_)(y=symbol(1), x=symbol(2))`
evaluates, under the source's `evaluate`, to `1 - 2 = -1` — the keyword
dictionary's values passed positionally in declaration order — whereas
the named calling convention the claim describes would bind `x := 2`
and `y := 1` and produce `2 - 1 = 1`. -/
theorem named_convention_counterexample :
    evaluate pyCall (applyNamed (symbol (.vfn .fSub))
        [("y", symbol (.vint 1)), ("x", symbol (.vint 2))]) = .vint (-1) ∧
    evaluateSpec pyCall pyCallNamed (applyNamed (symbol (.vfn .fSub))
        [("y", symbol (.vint 1)), ("x", symbol (.vint 2))]) = .vint 1 ∧
    evaluate pyCall (applyNamed (symbol (.vfn .fSub))
        [("y", symbol (.vint 1)), ("x", symbol (.vint 2))]) ≠
      evaluateSpec pyCall pyCallNamed (applyNamed (symbol (.vfn .fSub))
        [("y", symbol (.vint 1)), ("x", symbol (.vint 2))]) := by
  refine ⟨by decide, by decide, by decide⟩

/-- C9: application is a pure constructor of a brand-new node: both
applications of the same leaf go through the call operation
successfully, evaluate independently to their own results, share the
original's payload, and differ from the original leaf, whose children
remain absent and whose payload is unchanged. -/
theorem application_does_not_mutate (call : α → List α → α) (f : α) (c1 c2 : Sym α) :
    callSym (symbol f) [c1] [] = .ok (applyPos (symbol f) [c1]) ∧
    callSym (symbol f) [c2] [] = .ok (applyPos (symbol f) [c2]) ∧
    evaluate call (applyPos (symbol f) [c1]) = call f [evaluate call c1] ∧
    evaluate call (applyPos (symbol f) [c2]) = call f [evaluate call c2] ∧
    (symbol f).parameters = none ∧
    (symbol f).inst = f ∧
    (applyPos (symbol f) [c1]).inst = (symbol f).inst ∧
    (applyPos (symbol f) [c2]).inst = (symbol f).inst ∧
    applyPos (symbol f) [c1] ≠ symbol f ∧
    applyPos (symbol f) [c2] ≠ symbol f := by
  refine ⟨rfl, rfl, rfl, rfl, rfl, rfl, rfl, rfl, ?_, ?_⟩ <;> simp [applyPos, symbol]

/-- C10: iterating a leaf node fails with a host type error (`none`,
the `for` loop over Python `None`) rather than yielding an empty
sequence, even though the length of the same node is 0. -/
theorem leaf_iteration_fails (v : α) :
    iterSym (symbol v) = none ∧ iterSym (symbol v) ≠ some [] ∧ lenSym (symbol v) = 0 :=
  ⟨rfl, by simp [iterSym, symbol], rfl⟩

/-- C7: iteration over an application node yields the child nodes
themselves in declaration order — never keys — and produces the same
sequence whether the node was built positionally or by named binding of
the same children in the same order. -/
theorem iteration_order_independent_of_binding (x : α) (cs : List (Sym α))
    (names : List String) :
    iterSym (applyPos (symbol x) cs) = some cs ∧
    (names.length = cs.length → names.Nodup →
      iterSym (applyNamed (symbol x) (names.zip cs)) = some cs) := by
  refine ⟨rfl, fun hlen _ => ?_⟩
  simp [iterSym, applyNamed, List.map_snd_zip, le_of_eq hlen.symm]

/-- Witness for C7 at a concrete pair of nodes. -/
theorem iteration_order_independent_of_binding_witness :
    iterSym (applyPos (symbol (0 : Nat)) [symbol 1, symbol 2]) = some [symbol 1, symbol 2] ∧
    (["a", "b"].length = [symbol (1 : Nat), symbol 2].length) ∧
    (["a", "b"] : List String).Nodup ∧
    iterSym (applyNamed (symbol (0 : Nat)) (["a", "b"].zip [symbol 1, symbol 2])) =
      some [symbol 1, symbol 2] :=
  ⟨(iteration_order_independent_of_binding 0 [symbol 1, symbol 2] ["a", "b"]).1,
    by decide, by decide,
    (iteration_order_independent_of_binding 0 [symbol 1, symbol 2] ["a", "b"]).2
      (by decide) (by decide)⟩

/-- C6: integer indexing of an application node returns the child at
that position — for a named node, by position into the ordered values of
the mapping, not by name — slice keys return the corresponding
sub-sequence of children, and indexing a leaf (absent children) fails
with the not-applicable condition. -/
theorem getitem_positional_semantics (α : Type) :
    (∀ (x : α) (ps : List (Sym α)) (i : Nat), ∀ h : i < ps.length,
      getitem (applyPos (symbol x) ps) (.int (i : Int)) = .ok (.inl ps[i])) ∧
    (∀ (x : α) (kvs : List (String × Sym α)) (i : Nat),
      (kvs.map Prod.fst).Nodup → ∀ h : i < (kvs.map Prod.snd).length,
      getitem (applyNamed (symbol x) kvs) (.int (i : Int)) =
        .ok (.inl (kvs.map Prod.snd)[i])) ∧
    (∀ (x : α) (ps : List (Sym α)) (a b : Nat), a ≤ b → b ≤ ps.length →
      getitem (applyPos (symbol x) ps) (.slice (some (a : Int)) (some (b : Int))) =
        .ok (.inr ((ps.take b).drop a))) ∧
    (∀ (x : α) (kvs : List (String × Sym α)) (a b : Nat),
      (kvs.map Prod.fst).Nodup → a ≤ b → b ≤ kvs.length →
      getitem (applyNamed (symbol x) kvs) (.slice (some (a : Int)) (some (b : Int))) =
        .ok (.inr (((kvs.map Prod.snd).take b).drop a))) ∧
    (∀ (v : α) (k : Key), getitem (symbol v) k = .error .notApplicable) := by
  refine ⟨?_, ?_, ?_, ?_, ?_⟩
  · intro x ps i h
    simp [getitem, applyPos, Sym.parameters, getSeq, pyGetInt_nat ps i h]
  · intro x kvs i _ h
    simp [getitem, applyNamed, Sym.parameters, getSeq, pyGetInt_nat (kvs.map Prod.snd) i h]
  · intro x ps a b hab hb
    simp [getitem, applyPos, Sym.parameters, getSeq, pySlice_nat ps a b hab hb]
  · intro x kvs a b _ hab hb
    have hb2 : b ≤ (kvs.map Prod.snd).length := by simpa using hb
    simp [getitem, applyNamed, Sym.parameters, getSeq,
      pySlice_nat (kvs.map Prod.snd) a b hab hb2]
  · intro v k
    rfl

/-- Witness for C6 at concrete nodes and keys. -/
theorem getitem_positional_semantics_witness :
    getitem (applyPos (symbol (0 : Nat)) [symbol 1, symbol 2]) (.int 1) =
      .ok (.inl (symbol 2)) ∧
    getitem (applyNamed (symbol (0 : Nat)) [("a", symbol 1), ("b", symbol 2)]) (.int 0) =
      .ok (.inl (symbol 1)) ∧
    getitem (applyPos (symbol (0 : Nat)) [symbol 1, symbol 2, symbol 3]) (.slice (some 0) (some 2)) =
      .ok (.inr [symbol 1, symbol 2]) ∧
    getitem (applyNamed (symbol (0 : Nat)) [("a", symbol 1), ("b", symbol 2)]) (.slice (some 0) (some 1)) =
      .ok (.inr [symbol 1]) ∧
    getitem (symbol (5 : Nat)) (.int 0) = .error .notApplicable :=
  ⟨(getitem_positional_semantics Nat).1 0 [symbol 1, symbol 2] 1 (by decide),
    (getitem_positional_semantics Nat).2.1 0 [("a", symbol 1), ("b", symbol 2)] 0
      (by decide) (by decide),
    (getitem_positional_semantics Nat).2.2.1 0 [symbol 1, symbol 2, symbol 3] 0 2
      (by decide) (by decide),
    (getitem_positional_semantics Nat).2.2.2.1 0 [("a", symbol 1), ("b", symbol 2)] 0 1
      (by decide) (by decide) (by decide),
    (getitem_positional_semantics Nat).2.2.2.2 5 (.int 0)⟩

/-- C8: every operator-catalog entry, applied to operand nodes and
evaluated, equals the corresponding native host operation applied to
the operands' evaluations — in particular
`add_(X, Y).evaluate() = X.evaluate() + Y.evaluate()`. -/
theorem catalog_matches_native (X Y : Sym PyV) :
    evaluate pyCall (applyPos and_ [X, Y]) = pyAnd (evaluate pyCall X) (evaluate pyCall Y) ∧
    evaluate pyCall (applyPos or_ [X, Y]) = pyOr (evaluate pyCall X) (evaluate pyCall Y) ∧
    evaluate pyCall (applyPos not_ [X]) = pyNot (evaluate pyCall X) ∧
    evaluate pyCall (applyPos in_ [X, Y]) = pyIn (evaluate pyCall X) (evaluate pyCall Y) ∧
    evaluate pyCall (applyPos is_ [X, Y]) = pyIs (evaluate pyCall X) (evaluate pyCall Y) ∧
    evaluate pyCall (applyPos add_ [X, Y]) = pyAdd (evaluate pyCall X) (evaluate pyCall Y) ∧
    evaluate pyCall (applyPos sub_ [X, Y]) = pySub (evaluate pyCall X) (evaluate pyCall Y) ∧
    evaluate pyCall (applyPos mul_ [X, Y]) = pyMul (evaluate pyCall X) (evaluate pyCall Y) ∧
    evaluate pyCall (applyPos matmul_ [X, Y]) = pyMatmul (evaluate pyCall X) (evaluate pyCall Y) ∧
    evaluate pyCall (applyPos truediv_ [X, Y]) = pyTruediv (evaluate pyCall X) (evaluate pyCall Y) ∧
    evaluate pyCall (applyPos div_ [X, Y]) = pyTruediv (evaluate pyCall X) (evaluate pyCall Y) ∧
    evaluate pyCall (applyPos floordiv_ [X, Y]) = pyFloordiv (evaluate pyCall X) (evaluate pyCall Y) ∧
    evaluate pyCall (applyPos mod_ [X, Y]) = pyMod (evaluate pyCall X) (evaluate pyCall Y) ∧
    evaluate pyCall (applyPos pow_ [X, Y]) = pyPow (evaluate pyCall X) (evaluate pyCall Y) ∧
    evaluate pyCall (applyPos lshift_ [X, Y]) = pyLshift (evaluate pyCall X) (evaluate pyCall Y) ∧
    evaluate pyCall (applyPos rshift_ [X, Y]) = pyRshift (evaluate pyCall X) (evaluate pyCall Y) ∧
    evaluate pyCall (applyPos bitand_ [X, Y]) = pyBitand (evaluate pyCall X) (evaluate pyCall Y) ∧
    evaluate pyCall (applyPos amp_ [X, Y]) = pyBitand (evaluate pyCall X) (evaluate pyCall Y) ∧
    evaluate pyCall (applyPos bitxor_ [X, Y]) = pyBitxor (evaluate pyCall X) (evaluate pyCall Y) ∧
    evaluate pyCall (applyPos xor_ [X, Y]) = pyBitxor (evaluate pyCall X) (evaluate pyCall Y) ∧
    evaluate pyCall (applyPos bitor_ [X, Y]) = pyBitor (evaluate pyCall X) (evaluate pyCall Y) ∧
    evaluate pyCall (applyPos bar_ [X, Y]) = pyBitor (evaluate pyCall X) (evaluate pyCall Y) ∧
    evaluate pyCall (applyPos invert_ [X]) = pyInvert (evaluate pyCall X) ∧
    evaluate pyCall (applyPos pos_ [X]) = pyPos (evaluate pyCall X) ∧
    evaluate pyCall (applyPos uadd_ [X]) = pyPos (evaluate pyCall X) ∧
    evaluate pyCall (applyPos neg_ [X]) = pyNeg (evaluate pyCall X) ∧
    evaluate pyCall (applyPos usub_ [X]) = pyNeg (evaluate pyCall X) ∧
    evaluate pyCall (applyPos eq_ [X, Y]) = pyEq (evaluate pyCall X) (evaluate pyCall Y) ∧
    evaluate pyCall (applyPos ne_ [X, Y]) = pyNe (evaluate pyCall X) (evaluate pyCall Y) ∧
    evaluate pyCall (applyPos lt_ [X, Y]) = pyLt (evaluate pyCall X) (evaluate pyCall Y) ∧
    evaluate pyCall (applyPos le_ [X, Y]) = pyLe (evaluate pyCall X) (evaluate pyCall Y) ∧
    evaluate pyCall (applyPos gt_ [X, Y]) = pyGt (evaluate pyCall X) (evaluate pyCall Y) ∧
    evaluate pyCall (applyPos ge_ [X, Y]) = pyGe (evaluate pyCall X) (evaluate pyCall Y) :=
  ⟨rfl, rfl, rfl, rfl, rfl, rfl, rfl, rfl, rfl, rfl, rfl, rfl, rfl, rfl, rfl, rfl,
    rfl, rfl, rfl, rfl, rfl, rfl, rfl, rfl, rfl, rfl, rfl, rfl, rfl, rfl, rfl, rfl, rfl⟩

end Symbolism
